import Mathlib

set_option linter.unusedVariables false

/-!
Verification of the `dtlabs` library against its design specification.

The development shallowly embeds the two capabilities of the repository:

* the RPC layer (`dtlabs/rpc/_base_message.py`, `dtlabs/rpc/_client.py`,
  `dtlabs/rpc/rmq/_server.py`): message serialization (`json.dumps` /
  `json.loads` on flat field dictionaries, modelled by an executable
  renderer/parser pair over `List Char`), the client's reply callback and
  blocking wait loop, and the server's request callback and consume loop;

* the cloud-storage adapters (`dtlabs/cloud/buckets/_s3_bucket.py`,
  `dtlabs/cloud/buckets/_oci_bucket.py`): each operation is modelled as a
  function of the underlying vendor-call outcome (`Except PyErr`), so that
  exception wrapping behaviour is captured exactly.

Machine-level side effects (the pika socket, boto3/oci network calls, the
filesystem) are represented by explicit parameters and action traces.
-/

/-! ## Decimal rendering and parsing of integers

Models Python's `repr`/`str` of `int` and the integer syntax of
`json.dumps` / `json.loads`: an optional minus sign followed by decimal
digits without leading zeros. -/

/-- The decimal digit character for `n < 10` (Python digit characters). -/
def digitChar (n : Nat) : Char :=
  if n = 0 then '0' else if n = 1 then '1' else if n = 2 then '2'
  else if n = 3 then '3' else if n = 4 then '4' else if n = 5 then '5'
  else if n = 6 then '6' else if n = 7 then '7' else if n = 8 then '8'
  else '9'

/-- Digit-rendering worker: `fuel` bounds the recursion depth (any
`fuel > n` suffices, a number having far fewer digits than its value). -/
def natDigitsAux (fuel : Nat) (n : Nat) : List Char :=
  match fuel with
  | 0 => []
  | Nat.succ f =>
    if n < 10 then [digitChar n]
    else natDigitsAux f (n / 10) ++ [digitChar (n % 10)]

/-- Decimal digit string of a natural number, most significant digit first,
no leading zeros (as produced by Python's `int.__repr__`). -/
def natDigits (n : Nat) : List Char :=
  natDigitsAux (n + 1) n

/-- Whether a character is a decimal digit. -/
def isDigitCh (c : Char) : Bool :=
  48 ≤ c.toNat && c.toNat ≤ 57

/-- Splits a character list into its longest digit head and the remainder. -/
def spanDigits : List Char → List Char × List Char
  | [] => ([], [])
  | c :: cs =>
    if isDigitCh c then
      let p := spanDigits cs
      (c :: p.1, p.2)
    else ([], c :: cs)

/-- Numeric value of a digit string, accumulator style. -/
def digitsValFrom (a : Nat) (l : List Char) : Nat :=
  l.foldl (fun acc c => acc * 10 + (c.toNat - 48)) a

/-- Parses a nonempty run of leading digits as a natural number. -/
def parseNatNum (l : List Char) : Option (Nat × List Char) :=
  let p := spanDigits l
  if p.1.isEmpty then none else some (digitsValFrom 0 p.1, p.2)

/-! ## JSON string literals

Models the string-literal encoder of `json.dumps` and the string-literal
parser of `json.loads` on the fragment the code exercises: quote and
backslash get two-character escapes, control characters get `\u00XX`
escapes, all other characters are emitted verbatim. -/

/-- Hexadecimal digit character (lowercase, as emitted by `json.dumps`). -/
def hexDigitCh (n : Nat) : Char :=
  if n < 10 then digitChar n
  else if n = 10 then 'a' else if n = 11 then 'b' else if n = 12 then 'c'
  else if n = 13 then 'd' else if n = 14 then 'e' else 'f'

/-- Numeric value of a hexadecimal digit character. -/
def hexVal (c : Char) : Nat :=
  if 97 ≤ c.toNat then c.toNat - 87
  else if 65 ≤ c.toNat then c.toNat - 55
  else c.toNat - 48

/-- JSON escape of one character inside a string literal. -/
def escChar (c : Char) : List Char :=
  if c = '"' then ['\\', '"']
  else if c = '\\' then ['\\', '\\']
  else if c.toNat < 32 then
    ['\\', 'u', '0', '0', hexDigitCh (c.toNat / 16), hexDigitCh (c.toNat % 16)]
  else [c]

/-- JSON escape of a whole string body. -/
def escStr (s : List Char) : List Char :=
  (s.map escChar).flatten

/-- Rendered JSON string literal, quotes included (`json.dumps` on a `str`). -/
def renderStr (s : List Char) : List Char :=
  '"' :: (escStr s ++ ['"'])

/-- Unescape of a single-character escape sequence (`\"`, `\\`, `\n`, ...). -/
def unescChar (e : Char) : Char :=
  if e = 'n' then '\n'
  else if e = 't' then '\t'
  else if e = 'r' then '\r'
  else if e = 'b' then '\x08'
  else if e = 'f' then '\x0c'
  else e

/-- Parses the body of a JSON string literal (after the opening quote) up to
and including the closing quote, returning the decoded string and the rest of
the input. Models the string parser of `json.loads`. -/
def parseStrAux : List Char → Option (List Char × List Char)
  | [] => none
  | c :: rest =>
    if c = '"' then some ([], rest)
    else if c = '\\' then
      match rest with
      | [] => none
      | e :: rest2 =>
        if e = 'u' then
          match rest2 with
          | h1 :: h2 :: h3 :: h4 :: rest3 =>
            match parseStrAux rest3 with
            | none => none
            | some (s, r) =>
              some (Char.ofNat
                (hexVal h1 * 4096 + hexVal h2 * 256 + hexVal h3 * 16 + hexVal h4) :: s, r)
          | _ => none
        else
          match parseStrAux rest2 with
          | none => none
          | some (s, r) => some (unescChar e :: s, r)
    else
      match parseStrAux rest with
      | none => none
      | some (s, r) => some (c :: s, r)
termination_by structural l => l

/-! ## JSON values, objects, and the canonical encode/decode pair

`json.dumps` on a flat Python dict of ints and strings, with the default
separators (comma-space and colon-space), and the corresponding part of
`json.loads`. This is exactly the shape pydantic v1's `Model.json()`
produces for a Message: a flat field-to-value object. -/

/-- A JSON scalar value as carried by a Message field: a Python `int` or `str`. -/
inductive JVal where
  | jint (n : Int)
  | jstr (s : List Char)
deriving DecidableEq

/-- A flat JSON object: the field-name-to-value mapping of a Message, in field
order (Python dicts preserve insertion order). -/
abbrev JObj := List (List Char × JVal)

/-- Decimal rendering of a Python `int` (`str`/`repr`, also its JSON form). -/
def renderInt (n : Int) : List Char :=
  if n < 0 then '-' :: natDigits n.natAbs else natDigits n.toNat

/-- JSON rendering of a scalar value. -/
def renderJVal : JVal → List Char
  | JVal.jint n => renderInt n
  | JVal.jstr s => renderStr s

/-- JSON rendering of one `"key": value` pair (colon-space separator, as in
`json.dumps` defaults). -/
def renderField (f : List Char × JVal) : List Char :=
  renderStr f.1 ++ ':' :: ' ' :: renderJVal f.2

/-- JSON rendering of the comma-space separated tail fields of an object. -/
def renderFieldsTail (fs : JObj) : List Char :=
  (fs.map (fun f => ',' :: ' ' :: renderField f)).flatten

/-- JSON rendering of a flat object (`json.dumps` on a dict). -/
def renderObj (o : JObj) : List Char :=
  match o with
  | [] => ['{', '}']
  | f :: fs => '{' :: (renderField f ++ renderFieldsTail fs ++ ['}'])

/-- Parses a JSON integer: an optional minus sign and a digit run. -/
def parseIntJ (l : List Char) : Option (Int × List Char) :=
  match l with
  | [] => none
  | c :: rest =>
    if c = '-' then
      match parseNatNum rest with
      | none => none
      | some (n, r) => some (-(n : Int), r)
    else
      match parseNatNum l with
      | none => none
      | some (n, r) => some ((n : Int), r)

/-- Parses a JSON scalar value (string literal or integer). -/
def parseJVal (l : List Char) : Option (JVal × List Char) :=
  match l with
  | [] => none
  | c :: rest =>
    if c = '"' then
      match parseStrAux rest with
      | none => none
      | some (s, r) => some (JVal.jstr s, r)
    else
      match parseIntJ l with
      | none => none
      | some (n, r) => some (JVal.jint n, r)

/-- Parses one `"key": value` pair. -/
def parseField (l : List Char) : Option ((List Char × JVal) × List Char) :=
  match l with
  | [] => none
  | c :: rest =>
    if c = '"' then
      match parseStrAux rest with
      | none => none
      | some (k, r1) =>
        match r1 with
        | a :: b :: r2 =>
          if a = ':' then
            if b = ' ' then
              match parseJVal r2 with
              | none => none
              | some (v, r3) => some ((k, v), r3)
            else none
          else none
        | _ => none
    else none

/-- Parses the fields of a nonempty object body up to and including the
closing brace; `fuel` bounds the number of fields. -/
def parseFieldsF : Nat → List Char → Option (JObj × List Char)
  | 0, _ => none
  | Nat.succ fuel, l =>
    match parseField l with
    | none => none
    | some (f, r) =>
      match r with
      | [] => none
      | c :: r2 =>
        if c = '}' then some ([f], r2)
        else if c = ',' then
          match r2 with
          | [] => none
          | d :: r3 =>
            if d = ' ' then
              match parseFieldsF fuel r3 with
              | none => none
              | some (fs, r4) => some (f :: fs, r4)
            else none
        else none

/-- Parses a flat JSON object (the object parser of `json.loads`). -/
def parseObj (l : List Char) : Option (JObj × List Char) :=
  match l with
  | [] => none
  | c :: rest =>
    if c = '{' then
      match rest with
      | [] => none
      | d :: r2 =>
        if d = '}' then some ([], r2)
        else parseFieldsF rest.length rest
    else none

/-- A top-level JSON document as returned by `json.loads`: the three shapes
the code can encounter (string, flat object, integer). -/
inductive JTop where
  | tint (n : Int)
  | tstr (s : List Char)
  | tobj (o : JObj)
deriving DecidableEq

/-- Models `json.loads` on a complete document: dispatches on the first
character and requires the whole input to be consumed; `none` models a
`JSONDecodeError`. -/
def json_loads (l : List Char) : Option JTop :=
  match l with
  | [] => none
  | c :: rest =>
    if c = '"' then
      match parseStrAux rest with
      | some (s, r) => if r.isEmpty then some (JTop.tstr s) else none
      | none => none
    else if c = '{' then
      match parseObj l with
      | some (o, r) => if r.isEmpty then some (JTop.tobj o) else none
      | none => none
    else
      match parseIntJ l with
      | some (n, r) => if r.isEmpty then some (JTop.tint n) else none
      | none => none

/-! ## The Message schema and its canonical serialization

`_base_message.py`: `Message` is a pydantic model whose validated field
dict is serialized by `dumps` as `json.dumps(self.json())` — the JSON
string-literal encoding of the already-JSON-encoded field dict. -/

/-- A constructed RPC Message: its validated field-to-value mapping, in
declaration order (the pydantic model instance of `_base_message.py`). -/
structure Message where
  fields : JObj
deriving DecidableEq

/-- Pydantic v1 `Model.json()`: the JSON text of the field dict. -/
def Message.json (m : Message) : List Char :=
  renderObj m.fields

/-- `Message.dumps` (`_base_message.py` lines 8-9): `json.dumps(self.json())`. -/
def Message.dumps (m : Message) : List Char :=
  renderStr (Message.json m)

/-- Server-side decode in `RPCServer.on_request` (`_server.py` line 20):
`json.loads(json.loads(body))`. `none` models an exception escaping the
callback (malformed body, or a top-level value of the wrong shape). -/
def decodeBody (body : List Char) : Option JObj :=
  match json_loads body with
  | some (JTop.tstr s) =>
    match json_loads s with
    | some (JTop.tobj o) => some o
    | _ => none
  | _ => none

/-! ## RPC client (`_client.py`)

The client owns an exclusive callback queue, a single `corr_id`/`response`
pair, a reply callback `on_response`, and a blocking wait loop that pumps
the connection's event loop (`process_data_events`) in slices. -/

/-- Pika `BasicProperties`: the message metadata the code uses. -/
structure BasicProperties where
  reply_to : Option (List Char)
  correlation_id : Option (List Char)
deriving DecidableEq

/-- The mutable state of an `RPCClient` instance: its callback queue name and
the single shared `corr_id`/`response` pair (`_client.py` lines 16, 23-24). -/
structure ClientState where
  callback_queue : List Char
  corr_id : Option (List Char)
  response : Option (List Char)
deriving DecidableEq

/-- `RPCClient.on_response` (`_client.py` lines 26-28): record the body iff the
delivery's correlation token equals the outstanding one. -/
def RPCClient.on_response (st : ClientState) (props : BasicProperties)
    (body : List Char) : ClientState :=
  if st.corr_id = props.correlation_id then { st with response := some body } else st

/-- A delivered AMQP message as seen by a consumer callback. -/
structure Envelope where
  routing_key : List Char
  props : BasicProperties
  body : List Char
  delivery_tag : Nat
deriving DecidableEq

/-- The request envelope published by `RPCClient.call` (`_client.py` lines
31-41): fresh token, `reply_to` set to the client's callback queue, body
`json.dumps(message.json())`. -/
def RPCClient.call_publish (m : Message) (routing_key cbq token : List Char)
    (tag : Nat) : Envelope :=
  { routing_key := routing_key,
    props := { reply_to := some cbq, correlation_id := some token },
    body := Message.dumps m,
    delivery_tag := tag }

/-- One pump of `process_data_events`: deliver the slice's buffered messages
to the reply callback in order. -/
def processSlice (st : ClientState)
    (ds : List (BasicProperties × List Char)) : ClientState :=
  ds.foldl (fun s d => RPCClient.on_response s d.1 d.2) st

/-- Outcome of the blocking wait in `call`: either the recorded response body
is returned, or the loop is still waiting. The source has no other exit: no
`TimeoutError` (or any exception) is ever raised by the loop. -/
inductive CallOutcome where
  | returned (b : List Char)
  | stillWaiting
deriving DecidableEq

/-- The wait loop of `RPCClient.call` (`_client.py` lines 43-44):
`while self.response is None: self.connection.process_data_events(time_limit=timeout)`.
`timeout` is passed only as each pump's `time_limit` (a bound on that slice's
wall-clock duration); it never terminates the loop. `slices` lists the
deliveries arriving during successive pumps. -/
def RPCClient.call_wait (timeout : Option Nat) (st : ClientState) :
    List (List (BasicProperties × List Char)) → CallOutcome
  | [] =>
    match st.response with
    | some b => CallOutcome.returned b
    | none => CallOutcome.stillWaiting
  | s :: rest =>
    match st.response with
    | some b => CallOutcome.returned b
    | none => RPCClient.call_wait timeout (processSlice st s) rest

/-! ## RPC server (`rmq/_server.py`) -/

/-- A channel action performed by the server's request callback, in program
order. -/
inductive ChanAction where
  | publish (routing_key : Option (List Char)) (props : BasicProperties)
      (body : List Char)
  | ack (delivery_tag : Nat)
deriving DecidableEq

/-- A handler's return value: a Python value rendered by `str(...)` when the
reply is published (`_server.py` line 29). -/
inductive PyVal where
  | vint (n : Int)
  | vstr (s : List Char)
deriving DecidableEq

/-- Python `str(...)` of a handler result. -/
def pyStr : PyVal → List Char
  | PyVal.vint n => renderInt n
  | PyVal.vstr s => s

/-- `RPCServer.on_request` (`_server.py` lines 18-32) as its ordered list of
channel actions: decode the body (`json.loads(json.loads(body))`), invoke the
handler on the field dict as keyword arguments, publish `str(result)` to the
request's `reply_to` with the request's correlation token, then ack. If the
decode (or handler) raises, the callback aborts before any channel action. -/
def RPCServer.on_request (func : JObj → PyVal) (env : Envelope) : List ChanAction :=
  match decodeBody env.body with
  | none => []
  | some d =>
    [ChanAction.publish env.props.reply_to
       { reply_to := none, correlation_id := env.props.correlation_id }
       (pyStr (func d)),
     ChanAction.ack env.delivery_tag]

/-- A broker-visible setup call made by `RPCServer.start_consuming`. -/
inductive SetupAction where
  | basicQos (prefetch_count : Nat)
  | basicConsume (queue : List Char)
deriving DecidableEq

/-- `RPCServer.start_consuming` (`_server.py` lines 34-37): set the per-channel
QoS limit to one unacknowledged delivery, then register the consumer. -/
def RPCServer.start_consuming_actions (queue : List Char) : List SetupAction :=
  [SetupAction.basicQos 1, SetupAction.basicConsume queue]

/-- The arguments of the `queue_declare` call made in `RPCServer.__init__`
(`_server.py` line 16): `queue_declare(queue=self.queue)`, all other pika
parameters left at their defaults (`durable=False`, `exclusive=False`,
`auto_delete=False`). -/
structure QueueDeclareArgs where
  queue : List Char
  durable : Bool
  exclusive : Bool
  auto_delete : Bool
deriving DecidableEq

/-- The declaration `RPCServer.__init__` sends to the broker. -/
def RPCServer.init_queue_declare (queue : List Char) : QueueDeclareArgs :=
  { queue := queue, durable := false, exclusive := false, auto_delete := false }

/-- Broker semantics of `queue_declare`: create the queue if absent, leave it
untouched if already present. -/
def declareEffect (existing : List (List Char)) (d : QueueDeclareArgs) :
    List (List Char) :=
  if d.queue ∈ existing then existing else d.queue :: existing

/-- An event in a consuming server's lifetime: a delivery handed to the
callback, a reply published, or an ack sent. -/
inductive SrvEvent where
  | deliver (tag : Nat)
  | publishReply (routing_key : Option (List Char)) (corr : Option (List Char))
      (body : List Char)
  | ackEvent (tag : Nat)
deriving DecidableEq

/-- The event trace of a consuming server (QoS 1, so the broker hands over
deliveries one at a time) processing the queue's messages in order with
`on_request`. A decode/handler exception aborts the callback and crashes the
consume loop, ending the trace. -/
def serverTrace (func : JObj → PyVal) : List Envelope → List SrvEvent
  | [] => []
  | e :: rest =>
    SrvEvent.deliver e.delivery_tag ::
      (match decodeBody e.body with
       | none => []
       | some d =>
         SrvEvent.publishReply e.props.reply_to e.props.correlation_id
             (pyStr (func d)) ::
           SrvEvent.ackEvent e.delivery_tag :: serverTrace func rest)

/-- Number of deliveries begun in a trace segment. -/
def countDeliver (tr : List SrvEvent) : Nat :=
  tr.countP (fun ev => match ev with | SrvEvent.deliver _ => true | _ => false)

/-- Number of acks sent in a trace segment. -/
def countAck (tr : List SrvEvent) : Nat :=
  tr.countP (fun ev => match ev with | SrvEvent.ackEvent _ => true | _ => false)

/-- End-to-end exchange of one `RPCClient.call` against a consuming
`RPCServer`: the client publishes its request envelope, the server's callback
runs, the broker routes the reply publications on the default exchange to the
client's callback queue, and the client's wait loop pumps one slice containing
those deliveries. -/
def rpcCallRun (func : JObj → PyVal) (m : Message) (routing_key cbq token : List Char)
    (tag : Nat) : CallOutcome :=
  let st0 : ClientState := { callback_queue := cbq, corr_id := some token, response := none }
  let req := RPCClient.call_publish m routing_key cbq token tag
  let replies := (RPCServer.on_request func req).filterMap (fun a =>
    match a with
    | ChanAction.publish rk props body =>
      if rk = some cbq then some (props, body) else none
    | ChanAction.ack _ => none)
  RPCClient.call_wait none st0 [replies]

/-! ## Python exceptions and the storage adapters

`_s3_bucket.py` has no try/except around its vendor calls; `_oci_bucket.py`
wraps every operation in `try: ... except Exception as e: raise RuntimeError(...) from e`.
Each adapter operation is modelled as a function of the underlying vendor
call's outcome. -/

/-- A Python exception as the adapters see it. -/
inductive PyErr where
  | vendorError (msg : String)
  | runtimeError (msg : String)
  | valueError (msg : String)
  | validationError (msg : String)
deriving DecidableEq

/-- Python `str(e)` on an exception: its message. -/
def PyErr.message : PyErr → String
  | PyErr.vendorError m => m
  | PyErr.runtimeError m => m
  | PyErr.valueError m => m
  | PyErr.validationError m => m

/-- Whether an exception is a `RuntimeError` (the wrapper type OCI uses). -/
def PyErr.isRuntimeError : PyErr → Bool
  | PyErr.runtimeError _ => true
  | _ => false

/-- `S3Bucket.upload_item` (`_s3_bucket.py` lines 37-40): one `put_object`
call, no exception handling. -/
def S3Bucket.upload_item (target_path : String) (put_object : Except PyErr Unit) :
    Except PyErr Unit :=
  put_object

/-- `S3Bucket.upload_file` (line 42-43): one `upload_file` vendor call, no
exception handling. -/
def S3Bucket.upload_file (source_path target_path : String)
    (upload_call : Except PyErr Unit) : Except PyErr Unit :=
  upload_call

/-- `S3Bucket.delete_file` (lines 45-46): one `delete_object` call, no
exception handling. -/
def S3Bucket.delete_file (target_path : String) (delete_object : Except PyErr Unit) :
    Except PyErr Unit :=
  delete_object

/-- `S3Bucket.read_file` (lines 48-50): `get_object` then read the body; no
exception handling. -/
def S3Bucket.read_file (target : String) (get_object : Except PyErr String) :
    Except PyErr String :=
  get_object

/-- `S3Bucket.list_folder` (lines 52-55): one `list_objects_v2` call, no
exception handling. -/
def S3Bucket.list_folder (folder_path : String)
    (list_objects : Except PyErr (List String)) : Except PyErr (List String) :=
  list_objects

/-- `S3Bucket.generate_url` (lines 57-60): one `generate_presigned_url` call,
no exception handling. -/
def S3Bucket.generate_url (target : String) (presign : Except PyErr String) :
    Except PyErr String :=
  presign

/-- `S3Bucket.download_file` (lines 62-63): one `download_file` vendor call,
no exception handling. -/
def S3Bucket.download_file (target_path local_path : String)
    (download_call : Except PyErr Unit) : Except PyErr Unit :=
  download_call

/-- `S3Bucket.delete_folder` (lines 65-72): list, then delete the batch if
nonempty; no exception handling. -/
def S3Bucket.delete_folder (folder_path : String)
    (list_objects : Except PyErr (List String))
    (delete_objects : Except PyErr Unit) : Except PyErr Unit :=
  match list_objects with
  | Except.error e => Except.error e
  | Except.ok objs => if objs.isEmpty then Except.ok () else delete_objects

/-- `OCIBucket.upload_item` (`_oci_bucket.py` lines 54-62). -/
def OCIBucket.upload_item (target_path : String) (put_object : Except PyErr Unit) :
    Except PyErr Unit :=
  match put_object with
  | Except.ok u => Except.ok u
  | Except.error e =>
    Except.error (PyErr.runtimeError
      ("Upload failed for " ++ target_path ++ ": " ++ e.message))

/-- `OCIBucket.delete_file` (lines 72-78). -/
def OCIBucket.delete_file (target_path : String) (delete_object : Except PyErr Unit) :
    Except PyErr Unit :=
  match delete_object with
  | Except.ok u => Except.ok u
  | Except.error e =>
    Except.error (PyErr.runtimeError
      ("Delete failed for " ++ target_path ++ ": " ++ e.message))

/-- `OCIBucket.read_file` (lines 80-87). -/
def OCIBucket.read_file (target : String) (get_object : Except PyErr String) :
    Except PyErr String :=
  match get_object with
  | Except.ok d => Except.ok d
  | Except.error e =>
    Except.error (PyErr.runtimeError
      ("Failed to read file " ++ target ++ ": " ++ e.message))

/-- `OCIBucket.list_folder` (lines 89-97). -/
def OCIBucket.list_folder (folder_path : String)
    (list_objects : Except PyErr (List String)) : Except PyErr (List String) :=
  match list_objects with
  | Except.ok l => Except.ok l
  | Except.error e =>
    Except.error (PyErr.runtimeError
      ("Failed to list folder " ++ folder_path ++ ": " ++ e.message))

/-- `OCIBucket.generate_url` (lines 99-122). -/
def OCIBucket.generate_url (target : String) (par_request : Except PyErr String) :
    Except PyErr String :=
  match par_request with
  | Except.ok u => Except.ok u
  | Except.error e =>
    Except.error (PyErr.runtimeError
      ("Failed to generate URL for " ++ target ++ ": " ++ e.message))

/-- `OCIBucket.download_file` (lines 124-135). -/
def OCIBucket.download_file (target_path local_path : String)
    (get_object : Except PyErr String) : Except PyErr String :=
  match get_object with
  | Except.ok d => Except.ok d
  | Except.error e =>
    Except.error (PyErr.runtimeError
      ("Download failed for " ++ target_path ++ ": " ++ e.message))

/-- `OCIBucket.delete_folder` (lines 137-147): list then delete each object,
the whole body wrapped. -/
def OCIBucket.delete_folder (folder_path : String)
    (list_objects : Except PyErr (List String))
    (delete_each : Except PyErr Unit) : Except PyErr Unit :=
  match list_objects with
  | Except.error e =>
    Except.error (PyErr.runtimeError
      ("Failed to delete folder " ++ folder_path ++ ": " ++ e.message))
  | Except.ok objs =>
    if objs.isEmpty then Except.ok ()
    else
      match delete_each with
      | Except.ok u => Except.ok u
      | Except.error e =>
        Except.error (PyErr.runtimeError
          ("Failed to delete folder " ++ folder_path ++ ": " ++ e.message))

/-- Python `open` argument validation (CPython `io.open`): requesting binary
mode together with an `encoding` raises
`ValueError("binary mode doesn\x27t take an encoding argument")` before the
filesystem is touched. `fs` maps a path to its content when the file exists. -/
def pyOpen (fs : String → Option String) (path mode : String)
    (encoding : Option String) : Except PyErr String :=
  if mode.data.contains 'b' && encoding.isSome then
    Except.error (PyErr.valueError "binary mode doesn\x27t take an encoding argument")
  else
    match fs path with
    | some content => Except.ok content
    | none =>
      Except.error (PyErr.vendorError
        ("No such file or directory: " ++ path))

/-- `OCIBucket.upload_file` (`_oci_bucket.py` lines 64-70): inside the try
block, `open(source_path, "rb", encoding="utf-8")`, then `put_object` on the
handle; any exception is re-raised as
`RuntimeError(f"File upload failed: {e}")`. The second component records the
vendor calls actually issued. -/
def OCIBucket.upload_file (fs : String → Option String)
    (source_path target_path : String) (put_object : String → Except PyErr Unit) :
    Except PyErr Unit × List String :=
  match pyOpen fs source_path "rb" (some "utf-8") with
  | Except.error e =>
    (Except.error (PyErr.runtimeError ("File upload failed: " ++ e.message)), [])
  | Except.ok content =>
    match put_object content with
    | Except.ok u => (Except.ok u, [target_path])
    | Except.error e =>
      (Except.error (PyErr.runtimeError ("File upload failed: " ++ e.message)),
       [target_path])

/-! ## Message construction (pydantic validation)

Modelled from the spec: the `Message` base class of `_base_message.py`
delegates field validation to pydantic's `BaseModel`, a library external to
the repository. Per the spec's contract, construction succeeds exactly when
every declared field is present with a value of its declared type (keeping
exactly the declared fields, in declaration order) and otherwise raises a
`ValidationError`. -/

/-- The declared type of a Message field. -/
inductive PyTy where
  | tyInt
  | tyStr
deriving DecidableEq

/-- The runtime type of a field value. -/
def JVal.tyOf : JVal → PyTy
  | JVal.jint _ => PyTy.tyInt
  | JVal.jstr _ => PyTy.tyStr

/-- A Message subclass's declared schema: field names and types, in
declaration order. -/
abbrev MsgSpec := List (List Char × PyTy)

/-- Looks up a field by name in the constructor's keyword arguments. -/
def lookupField (name : List Char) (input : JObj) : Option JVal :=
  match input.find? (fun f => f.1 = name) with
  | some f => some f.2
  | none => none

/-- Whether one declared field is satisfied by the keyword arguments. -/
def fieldOk (input : JObj) (f : List Char × PyTy) : Bool :=
  match lookupField f.1 input with
  | some v => JVal.tyOf v = f.2
  | none => false

/-- Modelled from the spec: pydantic `BaseModel.__init__` validation for the
`Message` base class. Returns the validated Message or a `ValidationError`. -/
def Message.construct (spec : MsgSpec) (input : JObj) : Except PyErr Message :=
  if spec.all (fieldOk input) then
    Except.ok { fields := spec.filterMap (fun f =>
      (lookupField f.1 input).map (fun v => (f.1, v))) }
  else
    Except.error (PyErr.validationError "validation error for Message")

/-- A caller's attempt to build and send a request: construct the Message from
keyword arguments, then (only on success) publish it via `RPCClient.call`.
A `ValidationError` aborts before anything reaches the broker. -/
def RPCClient.call_attempt (spec : MsgSpec) (input : JObj)
    (routing_key cbq token : List Char) (tag : Nat) : Option Envelope :=
  match Message.construct spec input with
  | Except.error _ => none
  | Except.ok m => some (RPCClient.call_publish m routing_key cbq token tag)

/-! ## Concrete instances (from `tests/test_rpc.py`) used by witnesses -/

/-- The test's request Message `TestAddArgument(x=3, y=5)`. -/
def mAdd : Message :=
  { fields := [(['x'], JVal.jint 3), (['y'], JVal.jint 5)] }

/-- A second Message with the same field values. -/
def mAdd2 : Message :=
  { fields := [(['x'], JVal.jint 3), (['y'], JVal.jint 5)] }

/-- The test's handler: `add_fn(x, y) = x + y` dispatched on the decoded
keyword arguments. -/
def funcAdd : JObj → PyVal := fun d =>
  match lookupField ['x'] d, lookupField ['y'] d with
  | some (JVal.jint a), some (JVal.jint b) => PyVal.vint (a + b)
  | _, _ => PyVal.vint 0

/-- A request envelope carrying `mAdd`, as the broker would deliver it. -/
def envAdd : Envelope :=
  { routing_key := ['q'],
    props := { reply_to := some ['r'], correlation_id := some ['t'] },
    body := Message.dumps mAdd,
    delivery_tag := 7 }

/-- The declared schema of `TestAddArgument`: two int fields `x`, `y`. -/
def addSpec : MsgSpec :=
  [(['x'], PyTy.tyInt), (['y'], PyTy.tyInt)]

theorem digitChar_isDigit {n : Nat} (h : n < 10) : isDigitCh (digitChar n) = true := by
  interval_cases n <;> decide

theorem digitChar_toNat {n : Nat} (h : n < 10) : (digitChar n).toNat - 48 = n := by
  interval_cases n <;> decide

theorem natDigitsAux_ne_nil (fuel : Nat) :
    ∀ n, n < fuel → natDigitsAux fuel n ≠ [] := by
  induction fuel with
  | zero => intro n h; omega
  | succ f ih =>
    intro n _h
    unfold natDigitsAux
    split
    · simp
    · simp

theorem natDigits_ne_nil (n : Nat) : natDigits n ≠ [] :=
  natDigitsAux_ne_nil (n + 1) n (by omega)

theorem natDigitsAux_all_digit (fuel : Nat) :
    ∀ n, n < fuel → ∀ c ∈ natDigitsAux fuel n, isDigitCh c = true := by
  induction fuel with
  | zero => intro n h; omega
  | succ f ih =>
    intro n hn
    unfold natDigitsAux
    split
    · next h =>
      intro c hc
      simp only [List.mem_singleton] at hc
      subst hc
      exact digitChar_isDigit (by omega)
    · next h =>
      intro c hc
      rcases List.mem_append.mp hc with hm | hm
      · have hlt : n / 10 < f := by omega
        exact ih (n / 10) hlt c hm
      · simp only [List.mem_singleton] at hm
        subst hm
        exact digitChar_isDigit (Nat.mod_lt _ (by omega))

theorem natDigits_all_digit (n : Nat) : ∀ c ∈ natDigits n, isDigitCh c = true :=
  natDigitsAux_all_digit (n + 1) n (by omega)

theorem digitsValFrom_append (a : Nat) (l₁ l₂ : List Char) :
    digitsValFrom a (l₁ ++ l₂) = digitsValFrom (digitsValFrom a l₁) l₂ := by
  simp [digitsValFrom, List.foldl_append]

theorem digitsValFrom_natDigitsAux (fuel : Nat) :
    ∀ n, n < fuel →
      ∀ a, digitsValFrom a (natDigitsAux fuel n)
        = a * 10 ^ (natDigitsAux fuel n).length + n := by
  induction fuel with
  | zero => intro n h; omega
  | succ f ih =>
    intro n hn a
    unfold natDigitsAux
    split
    · next h =>
      simp [digitsValFrom, digitChar_toNat h]
    · next h =>
      have hlt : n / 10 < f := by omega
      rw [digitsValFrom_append, ih (n / 10) hlt]
      simp only [List.length_append, List.length_singleton]
      have hd : digitsValFrom (a * 10 ^ (natDigitsAux f (n / 10)).length + n / 10)
          [digitChar (n % 10)]
          = (a * 10 ^ (natDigitsAux f (n / 10)).length + n / 10) * 10 + n % 10 := by
        simp [digitsValFrom, digitChar_toNat (Nat.mod_lt _ (by omega : (0:Nat) < 10))]
      rw [hd, pow_succ]
      have := Nat.div_add_mod n 10
      ring_nf
      omega

theorem digitsVal_natDigits (n : Nat) : digitsValFrom 0 (natDigits n) = n := by
  unfold natDigits
  rw [digitsValFrom_natDigitsAux (n + 1) n (by omega)]
  simp

theorem spanDigits_append (l rest : List Char)
    (hl : ∀ c ∈ l, isDigitCh c = true)
    (hr : ∀ c, rest.head? = some c → isDigitCh c = false) :
    spanDigits (l ++ rest) = (l, rest) := by
  induction l with
  | nil =>
    simp only [List.nil_append]
    cases rest with
    | nil => rfl
    | cons c cs =>
      have := hr c rfl
      simp [spanDigits, this]
  | cons c cs ihc =>
    have hc := hl c (List.mem_cons_self c cs)
    simp only [List.cons_append, spanDigits, hc, if_true, List.append_eq]
    rw [ihc (fun x hx => hl x (List.mem_cons_of_mem c hx))]

theorem parseNatNum_natDigits (n : Nat) (rest : List Char)
    (hr : ∀ c, rest.head? = some c → isDigitCh c = false) :
    parseNatNum (natDigits n ++ rest) = some (n, rest) := by
  unfold parseNatNum
  rw [spanDigits_append (natDigits n) rest (natDigits_all_digit n) hr]
  simp only [List.isEmpty_iff]
  rw [if_neg (natDigits_ne_nil n)]
  rw [digitsVal_natDigits]

theorem hexRound {n : Nat} (h : n < 32) :
    hexVal (hexDigitCh (n / 16)) * 16 + hexVal (hexDigitCh (n % 16)) = n := by
  interval_cases n <;> decide

theorem parseStrAux_quote (rest : List Char) :
    parseStrAux ('"' :: rest) = some ([], rest) := by
  rw [parseStrAux.eq_def]
  rfl

theorem parseStrAux_escQuote (l : List Char) :
    parseStrAux ('\\' :: '"' :: l)
      = match parseStrAux l with
        | none => none
        | some (s, r) => some ('"' :: s, r) := by
  rw [parseStrAux.eq_def]
  rfl

theorem parseStrAux_escBackslash (l : List Char) :
    parseStrAux ('\\' :: '\\' :: l)
      = match parseStrAux l with
        | none => none
        | some (s, r) => some ('\\' :: s, r) := by
  rw [parseStrAux.eq_def]
  rfl

theorem parseStrAux_unicode (a b c d : Char) (l : List Char) :
    parseStrAux ('\\' :: 'u' :: a :: b :: c :: d :: l)
      = match parseStrAux l with
        | none => none
        | some (s, r) =>
          some (Char.ofNat
            (hexVal a * 4096 + hexVal b * 256 + hexVal c * 16 + hexVal d) :: s, r) := by
  rw [parseStrAux.eq_def]
  rfl

theorem parseStrAux_other (c : Char) (l : List Char) (hq : ¬c = '"') (hb : ¬c = '\\') :
    parseStrAux (c :: l)
      = match parseStrAux l with
        | none => none
        | some (s, r) => some (c :: s, r) := by
  rw [parseStrAux.eq_def]
  simp [hq, hb]

theorem parseStrAux_esc (s : List Char) (rest : List Char) :
    parseStrAux (escStr s ++ '"' :: rest) = some (s, rest) := by
  induction s with
  | nil =>
    show parseStrAux ('"' :: rest) = some ([], rest)
    exact parseStrAux_quote rest
  | cons c cs ih =>
    have hesc : escStr (c :: cs) = escChar c ++ escStr cs := by
      simp [escStr]
    rw [hesc, List.append_assoc]
    by_cases hq : c = '"'
    · subst hq
      have he : escChar '"' = ['\\', '"'] := by decide
      rw [he]
      simp only [List.cons_append, List.nil_append]
      rw [parseStrAux_escQuote, ih]
    · by_cases hb : c = '\\'
      · subst hb
        have he : escChar '\\' = ['\\', '\\'] := by decide
        rw [he]
        simp only [List.cons_append, List.nil_append]
        rw [parseStrAux_escBackslash, ih]
      · by_cases hctl : c.toNat < 32
        · have he : escChar c
              = ['\\', 'u', '0', '0', hexDigitCh (c.toNat / 16), hexDigitCh (c.toNat % 16)] := by
            simp [escChar, hq, hb, hctl]
          rw [he]
          simp only [List.cons_append, List.nil_append]
          rw [parseStrAux_unicode, ih]
          have h0 : hexVal '0' = 0 := by decide
          rw [h0]
          simp only [Nat.zero_mul, Nat.zero_add]
          rw [hexRound hctl, Char.ofNat_toNat]
        · have he : escChar c = [c] := by
            simp [escChar, hq, hb, hctl]
          rw [he]
          simp only [List.cons_append, List.nil_append]
          rw [parseStrAux_other c _ hq hb, ih]

theorem natDigits_head (n : Nat) :
    ∃ c cs, natDigits n = c :: cs ∧ isDigitCh c = true := by
  cases h : natDigits n with
  | nil => exact absurd h (natDigits_ne_nil n)
  | cons c cs =>
    exact ⟨c, cs, rfl, natDigits_all_digit n c (h ▸ List.mem_cons_self c cs)⟩

theorem isDigitCh_ne {c : Char} (hc : isDigitCh c = true) :
    c ≠ '"' ∧ c ≠ '-' ∧ c ≠ '{' ∧ c ≠ '}' ∧ c ≠ ',' := by
  refine ⟨?_, ?_, ?_, ?_, ?_⟩ <;>
    (intro h; subst h; exact absurd hc (by decide))

theorem parseIntJ_render (n : Int) (rest : List Char)
    (hr : ∀ c, rest.head? = some c → isDigitCh c = false) :
    parseIntJ (renderInt n ++ rest) = some (n, rest) := by
  unfold renderInt
  split
  · next hneg =>
    simp only [List.cons_append]
    rw [show parseIntJ ('-' :: (natDigits n.natAbs ++ rest))
          = match parseNatNum (natDigits n.natAbs ++ rest) with
            | none => none
            | some (p, r) => some (-(p : Int), r) from rfl]
    rw [parseNatNum_natDigits n.natAbs rest hr]
    show some (-((n.natAbs : Nat) : Int), rest) = some (n, rest)
    have habs : -((n.natAbs : Nat) : Int) = n := by omega
    rw [habs]
  · next hpos =>
    obtain ⟨c, cs, hcc, hdig⟩ := natDigits_head n.toNat
    rw [hcc]
    simp only [List.cons_append]
    rw [show parseIntJ (c :: (cs ++ rest))
          = if c = '-' then
              match parseNatNum (cs ++ rest) with
              | none => none
              | some (p, r) => some (-(p : Int), r)
            else
              match parseNatNum (c :: (cs ++ rest)) with
              | none => none
              | some (p, r) => some ((p : Int), r) from rfl]
    rw [if_neg (isDigitCh_ne hdig).2.1]
    rw [show (c :: (cs ++ rest)) = (c :: cs) ++ rest from rfl, ← hcc]
    rw [parseNatNum_natDigits n.toNat rest hr]
    show some (((n.toNat : Nat) : Int), rest) = some (n, rest)
    have htn : (((n.toNat : Nat) : Int)) = n := by omega
    rw [htn]

theorem parseJVal_render (v : JVal) (rest : List Char)
    (hr : ∀ c, rest.head? = some c → isDigitCh c = false) :
    parseJVal (renderJVal v ++ rest) = some (v, rest) := by
  cases v with
  | jint n =>
    have hint := parseIntJ_render n rest hr
    simp only [renderJVal] at *
    unfold renderInt at hint ⊢
    split at hint
    · next hneg =>
      rw [if_pos hneg]
      simp only [List.cons_append] at hint ⊢
      rw [show parseJVal ('-' :: (natDigits n.natAbs ++ rest))
            = match parseIntJ ('-' :: (natDigits n.natAbs ++ rest)) with
              | none => none
              | some (k, r) => some (JVal.jint k, r) from rfl]
      rw [hint]
    · next hpos =>
      rw [if_neg hpos]
      obtain ⟨c, cs, hcc, hdig⟩ := natDigits_head n.toNat
      rw [hcc] at hint ⊢
      simp only [List.cons_append] at hint ⊢
      rw [show parseJVal (c :: (cs ++ rest))
            = if c = '"' then
                match parseStrAux (cs ++ rest) with
                | none => none
                | some (s, r) => some (JVal.jstr s, r)
              else
                match parseIntJ (c :: (cs ++ rest)) with
                | none => none
                | some (k, r) => some (JVal.jint k, r) from rfl]
      rw [if_neg (isDigitCh_ne hdig).1, hint]
  | jstr s =>
    simp only [renderJVal, renderStr, List.cons_append, List.append_assoc,
      List.singleton_append, List.nil_append]
    rw [show parseJVal ('"' :: (escStr s ++ '"' :: rest))
          = match parseStrAux (escStr s ++ '"' :: rest) with
            | none => none
            | some (t, r) => some (JVal.jstr t, r) from rfl]
    rw [parseStrAux_esc s rest]

theorem parseField_render (f : List Char × JVal) (rest : List Char)
    (hr : ∀ c, rest.head? = some c → isDigitCh c = false) :
    parseField (renderField f ++ rest) = some (f, rest) := by
  have hshape : renderField f ++ rest
      = '"' :: (escStr f.1 ++ '"' :: (':' :: (' ' :: (renderJVal f.2 ++ rest)))) := by
    simp [renderField, renderStr, List.append_assoc]
  rw [hshape]
  rw [show parseField ('"' :: (escStr f.1 ++ '"' :: (':' :: (' ' :: (renderJVal f.2 ++ rest)))))
        = match parseStrAux (escStr f.1 ++ '"' :: (':' :: (' ' :: (renderJVal f.2 ++ rest)))) with
          | none => none
          | some (k, r1) =>
            match r1 with
            | a :: b :: r2 =>
              if a = ':' then
                if b = ' ' then
                  match parseJVal r2 with
                  | none => none
                  | some (v, r3) => some ((k, v), r3)
                else none
              else none
            | _ => none from rfl]
  rw [parseStrAux_esc f.1 (':' :: (' ' :: (renderJVal f.2 ++ rest)))]
  show (if ':' = ':' then
          if ' ' = ' ' then
            match parseJVal (renderJVal f.2 ++ rest) with
            | none => none
            | some (v, r3) => some ((f.1, v), r3)
          else none
        else none) = some (f, rest)
  rw [if_pos rfl, if_pos rfl, parseJVal_render f.2 rest hr]

theorem renderFieldsTail_cons (g : List Char × JVal) (gs : JObj) :
    renderFieldsTail (g :: gs) = ',' :: (' ' :: (renderField g ++ renderFieldsTail gs)) := by
  simp [renderFieldsTail]

theorem renderFieldsTail_length (fs : JObj) :
    fs.length ≤ (renderFieldsTail fs).length := by
  induction fs with
  | nil => simp [renderFieldsTail]
  | cons g gs ih =>
    rw [renderFieldsTail_cons]
    simp only [List.length_cons, List.length_append]
    omega

theorem parseFieldsF_render (fs : JObj) :
    ∀ (fuel : Nat) (f : List Char × JVal) (rest : List Char),
      fs.length + 1 ≤ fuel →
      parseFieldsF fuel (renderField f ++ (renderFieldsTail fs ++ ('}' :: rest)))
        = some (f :: fs, rest) := by
  induction fs with
  | nil =>
    intro fuel f rest hfuel
    obtain ⟨k, hk⟩ : ∃ k, fuel = k + 1 := ⟨fuel - 1, by omega⟩
    subst hk
    have hfield : parseField (renderField f ++ ('}' :: rest)) = some (f, '}' :: rest) :=
      parseField_render f ('}' :: rest) (fun c hc => by
        simp only [List.head?_cons, Option.some.injEq] at hc
        subst hc
        decide)
    simp only [renderFieldsTail, List.map_nil, List.flatten_nil, List.nil_append]
    rw [show parseFieldsF (k + 1) (renderField f ++ ('}' :: rest))
          = match parseField (renderField f ++ ('}' :: rest)) with
            | none => none
            | some (f, r) =>
              match r with
              | [] => none
              | c :: r2 =>
                if c = '}' then some ([f], r2)
                else if c = ',' then
                  match r2 with
                  | [] => none
                  | d :: r3 =>
                    if d = ' ' then
                      match parseFieldsF k r3 with
                      | none => none
                      | some (fs, r4) => some (f :: fs, r4)
                    else none
                else none from rfl]
    rw [hfield]
    rfl
  | cons g gs ih =>
    intro fuel f rest hfuel
    obtain ⟨k, hk⟩ : ∃ k, fuel = k + 1 := ⟨fuel - 1, by omega⟩
    subst hk
    rw [renderFieldsTail_cons]
    have hfield : parseField
        (renderField f ++ (',' :: (' ' :: (renderField g ++ (renderFieldsTail gs ++ ('}' :: rest))))))
        = some (f, ',' :: (' ' :: (renderField g ++ (renderFieldsTail gs ++ ('}' :: rest))))) :=
      parseField_render f _ (fun c hc => by
        simp only [List.head?_cons, Option.some.injEq] at hc
        subst hc
        decide)
    have hassoc : renderField f ++ (',' :: (' ' :: (renderField g ++ renderFieldsTail gs)) ++ ('}' :: rest))
        = renderField f ++ (',' :: (' ' :: (renderField g ++ (renderFieldsTail gs ++ ('}' :: rest))))) := by
      simp [List.append_assoc]
    rw [hassoc]
    rw [show parseFieldsF (k + 1)
          (renderField f ++ (',' :: (' ' :: (renderField g ++ (renderFieldsTail gs ++ ('}' :: rest))))))
          = match parseField
              (renderField f ++ (',' :: (' ' :: (renderField g ++ (renderFieldsTail gs ++ ('}' :: rest)))))) with
            | none => none
            | some (f, r) =>
              match r with
              | [] => none
              | c :: r2 =>
                if c = '}' then some ([f], r2)
                else if c = ',' then
                  match r2 with
                  | [] => none
                  | d :: r3 =>
                    if d = ' ' then
                      match parseFieldsF k r3 with
                      | none => none
                      | some (fs, r4) => some (f :: fs, r4)
                    else none
                else none from rfl]
    rw [hfield]
    show (if ',' = '}' then some ([f], ' ' :: (renderField g ++ (renderFieldsTail gs ++ ('}' :: rest))))
          else if ',' = ',' then
            if ' ' = ' ' then
              match parseFieldsF k (renderField g ++ (renderFieldsTail gs ++ ('}' :: rest))) with
              | none => none
              | some (fs, r4) => some (f :: fs, r4)
            else none
          else none) = some (f :: g :: gs, rest)
    rw [if_neg (by decide : ¬(',' = '}')), if_pos rfl, if_pos rfl]
    rw [ih k g rest (by simp at hfuel; omega)]

theorem renderField_head (f : List Char × JVal) :
    renderField f = '"' :: (escStr f.1 ++ ('"' :: (':' :: (' ' :: renderJVal f.2)))) := by
  simp [renderField, renderStr, List.append_assoc]

theorem parseObj_render (o : JObj) (rest : List Char) :
    parseObj (renderObj o ++ rest) = some (o, rest) := by
  cases o with
  | nil =>
    show parseObj ('{' :: ('}' :: rest)) = some ([], rest)
    rfl
  | cons f fs =>
    have hshape : renderObj (f :: fs) ++ rest
        = '{' :: (renderField f ++ (renderFieldsTail fs ++ ('}' :: rest))) := by
      simp [renderObj, List.append_assoc]
    rw [hshape]
    have hhead : ∃ cs, renderField f ++ (renderFieldsTail fs ++ ('}' :: rest)) = '"' :: cs := by
      rw [renderField_head]
      exact ⟨_, rfl⟩
    obtain ⟨cs, hcc⟩ := hhead
    rw [show parseObj ('{' :: (renderField f ++ (renderFieldsTail fs ++ ('}' :: rest))))
          = match renderField f ++ (renderFieldsTail fs ++ ('}' :: rest)) with
            | [] => none
            | d :: r2 =>
              if d = '}' then some ([], r2)
              else parseFieldsF (renderField f ++ (renderFieldsTail fs ++ ('}' :: rest))).length
                     (renderField f ++ (renderFieldsTail fs ++ ('}' :: rest))) from rfl]
    rw [hcc]
    show (if '"' = '}' then some ([], cs)
          else parseFieldsF ('"' :: cs).length ('"' :: cs)) = some (f :: fs, rest)
    rw [if_neg (by decide : ¬('"' = '}'))]
    rw [← hcc]
    have hlen : fs.length + 1
        ≤ (renderField f ++ (renderFieldsTail fs ++ ('}' :: rest))).length := by
      have h1 := renderFieldsTail_length fs
      have h2 : (renderField f ++ (renderFieldsTail fs ++ ('}' :: rest))).length
          = (renderField f).length + ((renderFieldsTail fs).length + (1 + rest.length)) := by
        simp [List.length_append]
        omega
      omega
    exact parseFieldsF_render fs _ f rest hlen

theorem json_loads_renderStr (s : List Char) :
    json_loads (renderStr s) = some (JTop.tstr s) := by
  show json_loads ('"' :: (escStr s ++ ['"'])) = some (JTop.tstr s)
  rw [show json_loads ('"' :: (escStr s ++ ['"']))
        = match parseStrAux (escStr s ++ ['"']) with
          | some (t, r) => if r.isEmpty then some (JTop.tstr t) else none
          | none => none from rfl]
  rw [show (escStr s ++ ['"'] : List Char) = escStr s ++ '"' :: [] from rfl]
  rw [parseStrAux_esc s []]
  rfl

theorem renderObj_headChar (o : JObj) :
    ∃ t, renderObj o = '{' :: t := by
  cases o with
  | nil => exact ⟨['}'], rfl⟩
  | cons f fs => exact ⟨renderField f ++ renderFieldsTail fs ++ ['}'], rfl⟩

theorem json_loads_renderObj (o : JObj) :
    json_loads (renderObj o) = some (JTop.tobj o) := by
  obtain ⟨t, ht⟩ := renderObj_headChar o
  rw [ht]
  rw [show json_loads ('{' :: t)
        = match parseObj ('{' :: t) with
          | some (q, r) => if r.isEmpty then some (JTop.tobj q) else none
          | none => none from rfl]
  rw [← ht]
  rw [show renderObj o = renderObj o ++ [] by simp]
  rw [parseObj_render o []]
  rfl

theorem decodeBody_dumps (m : Message) :
    decodeBody (Message.dumps m) = some m.fields := by
  unfold decodeBody Message.dumps
  rw [json_loads_renderStr (Message.json m)]
  show (match json_loads (Message.json m) with
        | some (JTop.tobj o) => some o
        | _ => none) = some m.fields
  unfold Message.json
  rw [json_loads_renderObj m.fields]

/-! ## Supporting lemmas for the claims -/

theorem on_request_call_publish (func : JObj → PyVal) (m : Message)
    (rk cbq token : List Char) (tag : Nat) :
    RPCServer.on_request func (RPCClient.call_publish m rk cbq token tag)
      = [ChanAction.publish (some cbq)
           { reply_to := none, correlation_id := some token }
           (pyStr (func m.fields)),
         ChanAction.ack tag] := by
  unfold RPCServer.on_request
  rw [show (RPCClient.call_publish m rk cbq token tag).body = Message.dumps m from rfl]
  rw [decodeBody_dumps m]
  rfl

theorem trace_ack_bound (func : JObj → PyVal) :
    ∀ (msgs : List Envelope) (p t : List SrvEvent),
      p ++ t = serverTrace func msgs → countDeliver p ≤ countAck p + 1 := by
  intro msgs
  induction msgs with
  | nil =>
    intro p t h
    have hp : p = [] := by
      have hnil : p ++ t = [] := by simpa [serverTrace] using h
      exact (List.append_eq_nil.mp hnil).1
    subst hp
    simp [countDeliver, countAck]
  | cons e rest ih =>
    intro p t h
    rw [show serverTrace func (e :: rest)
          = SrvEvent.deliver e.delivery_tag ::
              (match decodeBody e.body with
               | none => []
               | some d =>
                 SrvEvent.publishReply e.props.reply_to e.props.correlation_id
                     (pyStr (func d)) ::
                   SrvEvent.ackEvent e.delivery_tag :: serverTrace func rest) from rfl] at h
    cases p with
    | nil => simp [countDeliver, countAck]
    | cons a p1 =>
      rw [List.cons_append] at h
      injection h with h1 h2
      subst h1
      cases hd : decodeBody e.body with
      | none =>
        rw [hd] at h2
        have hp1 : p1 = [] := (List.append_eq_nil.mp h2).1
        subst hp1
        simp [countDeliver, countAck, List.countP_cons]
      | some d =>
        rw [hd] at h2
        cases p1 with
        | nil => simp [countDeliver, countAck, List.countP_cons]
        | cons b p2 =>
          rw [List.cons_append] at h2
          injection h2 with h3 h4
          subst h3
          cases p2 with
          | nil => simp [countDeliver, countAck, List.countP_cons]
          | cons c p3 =>
            rw [List.cons_append] at h4
            injection h4 with h5 h6
            subst h5
            have hih := ih p3 t h6
            simp only [countDeliver, countAck, List.countP_cons] at hih ⊢
            omega

/-! ## The claims -/

/-- C1 (code bug): the wait loop of `RPCClient.call` (`_client.py` lines
43-44) with a numeric `timeout` never raises `TimeoutError`. With no matching
delivery it is still waiting after any number `n` of pump slices — each slice
bounded by `timeout` seconds of wall-clock time, so the cumulative elapsed
wait exceeds `timeout` from the second slice on — and the loop's outcome type
has no timeout case at all, there being no `raise` in the source. The claim's
required behaviour (raise once the cumulative wait exceeds the given timeout)
therefore never occurs. -/
theorem C1_call_wait_never_raises_timeout (t : Nat) (cbq token : List Char) (n : Nat) :
    RPCClient.call_wait (some t)
      { callback_queue := cbq, corr_id := some token, response := none }
      (List.replicate n []) = CallOutcome.stillWaiting := by
  induction n with
  | zero => rfl
  | succ k ih => exact ih

/-- C2: for every handler and every Message, a `call` against a consuming
server returns exactly the handler's return value applied to the message's
fields as keyword arguments, rendered by `str(...)` (the text whose encoded
bytes form the reply body). -/
theorem C2_call_returns_serialized_handler_result (func : JObj → PyVal)
    (m : Message) (routing_key cbq token : List Char) (tag : Nat) :
    rpcCallRun func m routing_key cbq token tag
      = CallOutcome.returned (pyStr (func m.fields)) := by
  show RPCClient.call_wait none
      { callback_queue := cbq, corr_id := some token, response := none }
      [(RPCServer.on_request func
          (RPCClient.call_publish m routing_key cbq token tag)).filterMap
        (fun a => match a with
          | ChanAction.publish rk props body =>
            if rk = some cbq then some (props, body) else none
          | ChanAction.ack _ => none)]
      = CallOutcome.returned (pyStr (func m.fields))
  rw [on_request_call_publish func m routing_key cbq token tag]
  simp only [List.filterMap_cons, List.filterMap_nil, if_true]
  show RPCClient.call_wait none
      (processSlice
        { callback_queue := cbq, corr_id := some token, response := none }
        [({ reply_to := none, correlation_id := some token }, pyStr (func m.fields))])
      [] = CallOutcome.returned (pyStr (func m.fields))
  unfold processSlice
  simp only [List.foldl_cons, List.foldl_nil]
  unfold RPCClient.on_response
  rw [if_pos rfl]
  rfl

/-- C3: serializing a Message to its canonical published bytes
(`json.dumps(message.json())`) and decoding them with the server-side decode
(`json.loads(json.loads(body))`) recovers the field-to-value mapping exactly;
and serialization is deterministic: equal field values give equal bytes. -/
theorem C3_serialization_roundtrip_and_deterministic (m : Message) :
    decodeBody (Message.dumps m) = some m.fields
      ∧ ∀ m2 : Message, m.fields = m2.fields → Message.dumps m = Message.dumps m2 := by
  refine ⟨decodeBody_dumps m, ?_⟩
  intro m2 h
  unfold Message.dumps Message.json
  rw [h]

theorem C3_witness :
    decodeBody (Message.dumps mAdd) = some mAdd.fields
      ∧ Message.dumps mAdd = Message.dumps mAdd2 :=
  ⟨(C3_serialization_roundtrip_and_deterministic mAdd).1,
   (C3_serialization_roundtrip_and_deterministic mAdd).2 mAdd2 rfl⟩

/-- C4 counterexample: the queue declared by `RPCServer.__init__`
(`queue_declare(queue=self.queue)`, `_server.py` line 16) is NOT durable —
pika's default is `durable=False` — refuting the claim at the test's queue
name. -/
theorem C4_counterexample :
    ¬ (RPCServer.init_queue_declare ("test_rpc_queue".toList)).durable = true := by
  decide

/-- C4 (amended): for every queue name, constructing an RPCServer declares the
work queue with pika's default parameters — in particular non-durable
(`durable = false`) — and the declaration creates the queue if absent. -/
theorem C4_amended_declare_defaults (q : List Char) (existing : List (List Char)) :
    RPCServer.init_queue_declare q
        = { queue := q, durable := false, exclusive := false, auto_delete := false }
      ∧ q ∈ declareEffect existing (RPCServer.init_queue_declare q) := by
  refine ⟨rfl, ?_⟩
  unfold declareEffect RPCServer.init_queue_declare
  by_cases h : q ∈ existing
  · simp only [if_pos h]
    exact h
  · simp only [if_neg h]
    exact List.mem_cons_self q existing

/-- C5: in the channel-action sequence of `RPCServer.on_request`, an ack of
the delivered envelope only ever occurs after (at a strictly later position
than) a publish to the envelope's reply-to address carrying the request's
correlation token; the server never acks before publishing the reply. -/
theorem C5_ack_only_after_publish (func : JObj → PyVal) (env : Envelope) (i : Nat)
    (h : (RPCServer.on_request func env)[i]? = some (ChanAction.ack env.delivery_tag)) :
    ∃ j, j < i ∧ ∃ body,
      (RPCServer.on_request func env)[j]?
        = some (ChanAction.publish env.props.reply_to
            { reply_to := none, correlation_id := env.props.correlation_id } body) := by
  unfold RPCServer.on_request at h ⊢
  cases hd : decodeBody env.body with
  | none =>
    rw [hd] at h
    simp at h
  | some d =>
    rw [hd] at h
    rcases i with _ | _ | k
    · simp at h
    · exact ⟨0, by omega, pyStr (func d), rfl⟩
    · simp at h

theorem C5_witness :
    ∃ j, j < 1 ∧ ∃ body,
      (RPCServer.on_request funcAdd envAdd)[j]?
        = some (ChanAction.publish envAdd.props.reply_to
            { reply_to := none, correlation_id := envAdd.props.correlation_id } body) :=
  C5_ack_only_after_publish funcAdd envAdd 1 (by decide)

/-- C6: the server sets the per-channel QoS limit to one unacknowledged
delivery before registering its consumer, and consequently, along every
execution trace of a consuming server, every trace segment from the start
contains at most one more begun delivery than completed acks: a second
request is never being handled before the first is acknowledged. -/
theorem C6_sequential_processing (queue : List Char) (func : JObj → PyVal)
    (msgs : List Envelope) (p t : List SrvEvent)
    (h : p ++ t = serverTrace func msgs) :
    RPCServer.start_consuming_actions queue
        = [SetupAction.basicQos 1, SetupAction.basicConsume queue]
      ∧ countDeliver p ≤ countAck p + 1 :=
  ⟨rfl, trace_ack_bound func msgs p t h⟩

theorem C6_witness :
    RPCServer.start_consuming_actions ['q']
        = [SetupAction.basicQos 1, SetupAction.basicConsume ['q']]
      ∧ countDeliver (serverTrace funcAdd [envAdd, envAdd])
          ≤ countAck (serverTrace funcAdd [envAdd, envAdd]) + 1 :=
  C6_sequential_processing ['q'] funcAdd [envAdd, envAdd]
    (serverTrace funcAdd [envAdd, envAdd]) [] (by simp)

/-- C7: the reply callback `RPCClient.on_response` fills the response slot
with the delivered body exactly when the delivery's correlation token equals
the client's outstanding token, and otherwise leaves the whole client state —
in particular the response slot — unchanged. -/
theorem C7_on_response_fills_iff_token_matches (st : ClientState)
    (props : BasicProperties) (body : List Char) :
    RPCClient.on_response st props body
      = { st with response :=
            if st.corr_id = props.correlation_id then some body else st.response } := by
  by_cases h : st.corr_id = props.correlation_id
  · simp [RPCClient.on_response, h]
  · simp [RPCClient.on_response, h]

/-- C8 counterexample: `S3Bucket.read_file` has no exception handling, so a
failing vendor call propagates as the raw vendor error — not a wrapped
`RuntimeError` — refuting the claim for the S3 adapter at a concrete input. -/
theorem C8_counterexample :
    S3Bucket.read_file "videos/test.mp4" (Except.error (PyErr.vendorError "NoSuchKey"))
        = Except.error (PyErr.vendorError "NoSuchKey")
      ∧ PyErr.isRuntimeError (PyErr.vendorError "NoSuchKey") = false :=
  ⟨rfl, rfl⟩

/-- C8 (amended): only the OCI adapter wraps failures — every `OCIBucket`
operation turns a vendor failure into a `RuntimeError` whose message carries
the operation/path context and the original cause — while every `S3Bucket`
operation propagates the vendor error unchanged, with no wrapping at all. -/
theorem C8_amended_only_oci_wraps (e : PyErr) (p q : String)
    (u : Except PyErr Unit) :
    OCIBucket.upload_item p (Except.error e)
        = Except.error (PyErr.runtimeError ("Upload failed for " ++ p ++ ": " ++ e.message))
      ∧ OCIBucket.delete_file p (Except.error e)
        = Except.error (PyErr.runtimeError ("Delete failed for " ++ p ++ ": " ++ e.message))
      ∧ OCIBucket.read_file p (Except.error e)
        = Except.error (PyErr.runtimeError ("Failed to read file " ++ p ++ ": " ++ e.message))
      ∧ OCIBucket.list_folder p (Except.error e)
        = Except.error (PyErr.runtimeError ("Failed to list folder " ++ p ++ ": " ++ e.message))
      ∧ OCIBucket.generate_url p (Except.error e)
        = Except.error (PyErr.runtimeError ("Failed to generate URL for " ++ p ++ ": " ++ e.message))
      ∧ OCIBucket.download_file p q (Except.error e)
        = Except.error (PyErr.runtimeError ("Download failed for " ++ p ++ ": " ++ e.message))
      ∧ OCIBucket.delete_folder p (Except.error e) u
        = Except.error (PyErr.runtimeError ("Failed to delete folder " ++ p ++ ": " ++ e.message))
      ∧ S3Bucket.upload_item p (Except.error e) = Except.error e
      ∧ S3Bucket.upload_file p q (Except.error e) = Except.error e
      ∧ S3Bucket.delete_file p (Except.error e) = Except.error e
      ∧ S3Bucket.read_file p (Except.error e) = Except.error e
      ∧ S3Bucket.list_folder p (Except.error e) = Except.error e
      ∧ S3Bucket.generate_url p (Except.error e) = Except.error e
      ∧ S3Bucket.download_file p q (Except.error e) = Except.error e
      ∧ S3Bucket.delete_folder p (Except.error e) u = Except.error e :=
  ⟨rfl, rfl, rfl, rfl, rfl, rfl, rfl, rfl, rfl, rfl, rfl, rfl, rfl, rfl, rfl⟩

/-- C9: Message construction succeeds exactly when every declared field is
present in the keyword arguments with a value of its declared type; any
failure is a `ValidationError`, and a failed construction publishes nothing —
no envelope is ever built from a malformed Message. -/
theorem C9_validation_gates_publishing (spec : MsgSpec) (input : JObj)
    (routing_key cbq token : List Char) (tag : Nat) :
    ((∃ m, Message.construct spec input = Except.ok m)
        ↔ ∀ f ∈ spec, ∃ v, lookupField f.1 input = some v ∧ JVal.tyOf v = f.2)
      ∧ ∀ e, Message.construct spec input = Except.error e
          → (∃ s, e = PyErr.validationError s)
            ∧ RPCClient.call_attempt spec input routing_key cbq token tag = none := by
  constructor
  · constructor
    · intro hok f hf
      by_cases hall : spec.all (fieldOk input) = true
      · have hfok := List.all_eq_true.mp hall f hf
        unfold fieldOk at hfok
        cases hl : lookupField f.1 input with
        | none => rw [hl] at hfok; simp at hfok
        | some v =>
          rw [hl] at hfok
          refine ⟨v, rfl, ?_⟩
          simpa using hfok
      · obtain ⟨m, hm⟩ := hok
        unfold Message.construct at hm
        rw [if_neg hall] at hm
        exact absurd hm (by simp)
    · intro hall
      unfold Message.construct
      rw [if_pos ?hcond]
      case hcond =>
        apply List.all_eq_true.mpr
        intro f hf
        obtain ⟨v, hv, hty⟩ := hall f hf
        unfold fieldOk
        rw [hv]
        simpa using hty
      exact ⟨_, rfl⟩
  · intro e he
    by_cases hall : spec.all (fieldOk input) = true
    · unfold Message.construct at he
      rw [if_pos hall] at he
      exact absurd he (by simp)
    · constructor
      · unfold Message.construct at he
        rw [if_neg hall] at he
        injection he with h1
        exact ⟨_, h1.symm⟩
      · unfold RPCClient.call_attempt Message.construct
        rw [if_neg hall]

theorem C9_witness :
    ∃ m, Message.construct addSpec [(['x'], JVal.jint 3), (['y'], JVal.jint 5)]
      = Except.ok m :=
  (C9_validation_gates_publishing addSpec [(['x'], JVal.jint 3), (['y'], JVal.jint 5)]
      ['q'] ['r'] ['t'] 0).1.mpr (by
    intro f hf
    simp only [addSpec, List.mem_cons, List.not_mem_nil, or_false] at hf
    rcases hf with hf | hf
    · subst hf
      exact ⟨JVal.jint 3, rfl, rfl⟩
    · subst hf
      exact ⟨JVal.jint 5, rfl, rfl⟩)

/-- C10: `OCIBucket.upload_file` fails on every invocation and never issues a
vendor call: `open(source_path, "rb", encoding="utf-8")` requests binary mode
with an encoding, which raises `ValueError` before any filesystem or network
access, and the except-clause re-raises it as a `RuntimeError` carrying the
cause. -/
theorem C10_oci_upload_file_always_fails (fs : String → Option String)
    (source_path target_path : String) (put_object : String → Except PyErr Unit) :
    OCIBucket.upload_file fs source_path target_path put_object
      = (Except.error (PyErr.runtimeError
          ("File upload failed: binary mode doesn\x27t take an encoding argument")),
         []) := by
  unfold OCIBucket.upload_file pyOpen
  rw [if_pos (by decide : (("rb" : String).data.contains 'b'
        && (some ("utf-8" : String)).isSome) = true)]
  rfl
